import Mathlib

/-!
Shallow embedding of the one-dimensional Lattice Boltzmann solver
(`1d_lbm.py`, class `LatticeBoltzmannSolver`).

The solver state holds the lattice fields; numpy arrays become functions
from site indices, and the float arithmetic of the source is modelled over
the real numbers, with `Real.exp` standing for `np.exp`.  The in-place
update loops of the streaming step are embedded as explicit recursions over
the iteration count, preserving the order in which the source writes the
sites.
-/

noncomputable section

/-- The state of `LatticeBoltzmannSolver`: the constructor parameters and
the lattice fields.  `f d i` is the distribution value of direction `d`
at site `i`; `rho`, `u`, `epsilon` are the per-site fields. -/
structure LatticeBoltzmannSolver where
  nx : ℕ
  nt : ℕ
  omega : ℝ
  dx : ℝ
  dt : ℝ
  f : Fin 3 → ℕ → ℝ
  rho : ℕ → ℝ
  u : ℕ → ℝ
  epsilon : ℕ → ℝ

/-- The velocity vectors `c = [0, 1, -1]`. -/
def lbmC : Fin 3 → ℝ := ![0, 1, -1]

/-- The weights `w = [1/3, 1/6, 1/6]`. -/
def lbmW : Fin 3 → ℝ := ![1/3, 1/6, 1/6]

/-- `__init__(nx, nt, omega, dx=1.0, dt=1.0)`: `f` is zero-filled, `rho`
all ones, `u` and `epsilon` all zeros. -/
def init (nx nt : ℕ) (omega dx dt : ℝ) : LatticeBoltzmannSolver :=
  { nx := nx, nt := nt, omega := omega, dx := dx, dt := dt,
    f := fun _ _ => 0, rho := fun _ => 1, u := fun _ => 0,
    epsilon := fun _ => 0 }

/-- `equilibrium_distribution`: for each direction `d`,
`u_eq[d,:] = u + c[d]` and
`f_eq[d,:] = w[d] * rho * (1 + 3*u_eq + 9/2*u_eq**2 - 3/2*u**2) * exp(epsilon)`. -/
def equilibrium_distribution (s : LatticeBoltzmannSolver) : Fin 3 → ℕ → ℝ :=
  fun d i =>
    lbmW d * s.rho i *
      (1 + 3 * (s.u i + lbmC d) + 9/2 * (s.u i + lbmC d) ^ 2
        - 3/2 * (s.u i) ^ 2) * Real.exp (s.epsilon i)

/-- `collision`: `f[d,:] = (1 - omega) * f[d,:] + omega * f_eq[d,:]`,
with `f_eq` freshly computed from the current state. -/
def collision (s : LatticeBoltzmannSolver) : LatticeBoltzmannSolver :=
  { s with
    f := fun d i =>
      (1 - s.omega) * s.f d i + s.omega * equilibrium_distribution s d i }

/-- The first streaming loop, `for i in range(1, nx): f[1, i] = f[1, i-1]`,
executed in place in ascending order; `streamRight g k` is the row after
the iterations `i = 1, ..., k`. -/
def streamRight (g : ℕ → ℝ) : ℕ → (ℕ → ℝ)
  | 0 => g
  | k + 1 => Function.update (streamRight g k) (k + 1) (streamRight g k k)

/-- The second streaming loop,
`for i in range(nx-2, -1, -1): f[2, i] = f[2, i+1]`, executed in place in
descending order; `streamLeft g nx k` is the row after the iterations
`i = nx-2, ..., nx-1-k`. -/
def streamLeft (g : ℕ → ℝ) (nx : ℕ) : ℕ → (ℕ → ℝ)
  | 0 => g
  | k + 1 =>
      Function.update (streamLeft g nx k) (nx - 2 - k)
        (streamLeft g nx k (nx - 1 - k))

/-- `streaming`: row 1 runs the ascending loop over `i = 1, ..., nx-1`,
row 2 runs the descending loop over `i = nx-2, ..., 0`, row 0 is untouched. -/
def streaming (s : LatticeBoltzmannSolver) : LatticeBoltzmannSolver :=
  { s with
    f := fun d =>
      if d = 1 then streamRight (s.f 1) (s.nx - 1)
      else if d = 2 then streamLeft (s.f 2) s.nx (s.nx - 1)
      else s.f d }

/-- `update_density_velocity`: `rho = np.sum(f, axis=0)` and then
`u = (f[1,:] - f[2,:]) / rho` with the freshly assigned `rho`. -/
def update_density_velocity (s : LatticeBoltzmannSolver) : LatticeBoltzmannSolver :=
  { s with
    rho := fun i => s.f 0 i + s.f 1 i + s.f 2 i,
    u := fun i => (s.f 1 i - s.f 2 i) / (s.f 0 i + s.f 1 i + s.f 2 i) }

/-- `set_epsilon`: replaces the binding-energy field. -/
def set_epsilon (s : LatticeBoltzmannSolver) (e : ℕ → ℝ) : LatticeBoltzmannSolver :=
  { s with epsilon := e }

/-- One iteration of the `evolve` loop body:
`collision(); streaming(); update_density_velocity()`. -/
def lbmStep (s : LatticeBoltzmannSolver) : LatticeBoltzmannSolver :=
  update_density_velocity (streaming (collision s))

/-- The `for n in range(nt)` loop of `evolve`, by remaining iteration
count. -/
def evolveSteps : ℕ → LatticeBoltzmannSolver → LatticeBoltzmannSolver
  | 0, s => s
  | n + 1, s => evolveSteps n (lbmStep s)

/-- `evolve`: runs the loop body `nt` times. -/
def evolve (s : LatticeBoltzmannSolver) : LatticeBoltzmannSolver :=
  evolveSteps s.nt s

/-! ### Frame lemmas for the stages -/

@[simp] lemma collision_nx (s : LatticeBoltzmannSolver) : (collision s).nx = s.nx := rfl

@[simp] lemma collision_omega (s : LatticeBoltzmannSolver) :
    (collision s).omega = s.omega := rfl

@[simp] lemma collision_rho (s : LatticeBoltzmannSolver) : (collision s).rho = s.rho := rfl

@[simp] lemma collision_u (s : LatticeBoltzmannSolver) : (collision s).u = s.u := rfl

@[simp] lemma collision_epsilon (s : LatticeBoltzmannSolver) :
    (collision s).epsilon = s.epsilon := rfl

@[simp] lemma streaming_nx (s : LatticeBoltzmannSolver) : (streaming s).nx = s.nx := rfl

@[simp] lemma streaming_omega (s : LatticeBoltzmannSolver) :
    (streaming s).omega = s.omega := rfl

@[simp] lemma streaming_rho (s : LatticeBoltzmannSolver) : (streaming s).rho = s.rho := rfl

@[simp] lemma streaming_u (s : LatticeBoltzmannSolver) : (streaming s).u = s.u := rfl

@[simp] lemma streaming_epsilon (s : LatticeBoltzmannSolver) :
    (streaming s).epsilon = s.epsilon := rfl

@[simp] lemma update_density_velocity_nx (s : LatticeBoltzmannSolver) :
    (update_density_velocity s).nx = s.nx := rfl

@[simp] lemma update_density_velocity_omega (s : LatticeBoltzmannSolver) :
    (update_density_velocity s).omega = s.omega := rfl

@[simp] lemma update_density_velocity_f (s : LatticeBoltzmannSolver) :
    (update_density_velocity s).f = s.f := rfl

@[simp] lemma update_density_velocity_epsilon (s : LatticeBoltzmannSolver) :
    (update_density_velocity s).epsilon = s.epsilon := rfl

/-! ### Closed forms of the two streaming loops -/

/-- After the first `k` iterations of the ascending loop, the sites
`1, ..., k` all hold the original value of site `0`; the rest of the row is
untouched. -/
lemma streamRight_apply (g : ℕ → ℝ) : ∀ (k : ℕ) (i : ℕ),
    streamRight g k i = if 1 ≤ i ∧ i ≤ k then g 0 else g i := by
  intro k
  induction k with
  | zero =>
      intro i
      have hc : ¬(1 ≤ i ∧ i ≤ 0) := by omega
      rw [if_neg hc]
      rfl
  | succ k ih =>
      intro i
      have hval : streamRight g k k = g 0 := by
        rcases Nat.eq_zero_or_pos k with h0 | h1
        · subst h0; rfl
        · rw [ih k, if_pos ⟨h1, Nat.le_refl k⟩]
      rw [streamRight, Function.update_apply, ih i, hval]
      by_cases hi : i = k + 1
      · subst hi
        rw [if_pos rfl, if_pos (by omega : 1 ≤ k + 1 ∧ k + 1 ≤ k + 1)]
      · have hiff : (1 ≤ i ∧ i ≤ k) ↔ (1 ≤ i ∧ i ≤ k + 1) := by omega
        rw [if_neg hi]
        exact if_congr hiff rfl rfl

/-- After the first `k ≤ nx - 1` iterations of the descending loop, the
sites `nx-1-k, ..., nx-2` all hold the original value of site `nx-1`; the
rest of the row is untouched. -/
lemma streamLeft_apply (g : ℕ → ℝ) (nx : ℕ) : ∀ (k : ℕ), k ≤ nx - 1 → ∀ (i : ℕ),
    streamLeft g nx k i =
      if nx - 1 - k ≤ i ∧ i ≤ nx - 2 then g (nx - 1) else g i := by
  intro k
  induction k with
  | zero =>
      intro _ i
      by_cases hc : nx - 1 - 0 ≤ i ∧ i ≤ nx - 2
      · have hi : i = nx - 1 := by omega
        rw [if_pos hc, hi]
        rfl
      · rw [if_neg hc]
        rfl
  | succ k ih =>
      intro hk i
      have hk' : k ≤ nx - 1 := Nat.le_of_succ_le hk
      have hnx : 2 ≤ nx := by omega
      have hval : streamLeft g nx k (nx - 1 - k) = g (nx - 1) := by
        rw [ih hk' (nx - 1 - k)]
        by_cases hcc : nx - 1 - k ≤ nx - 1 - k ∧ nx - 1 - k ≤ nx - 2
        · rw [if_pos hcc]
        · rw [if_neg hcc]
          have h0 : k = 0 := by omega
          subst h0
          rfl
      rw [streamLeft, Function.update_apply, ih hk' i, hval]
      by_cases hi : i = nx - 2 - k
      · subst hi
        rw [if_pos rfl,
          if_pos (by omega : nx - 1 - (k + 1) ≤ nx - 2 - k ∧ nx - 2 - k ≤ nx - 2)]
      · have hiff : (nx - 1 - k ≤ i ∧ i ≤ nx - 2) ↔
            (nx - 1 - (k + 1) ≤ i ∧ i ≤ nx - 2) := by omega
        rw [if_neg hi]
        exact if_congr hiff rfl rfl

/-- The streaming step in closed form, row 1. -/
lemma streaming_f1 (s : LatticeBoltzmannSolver) (i : ℕ) :
    (streaming s).f 1 i =
      if 1 ≤ i ∧ i ≤ s.nx - 1 then s.f 1 0 else s.f 1 i := by
  simp [streaming, streamRight_apply]

/-- The streaming step in closed form, row 2. -/
lemma streaming_f2 (s : LatticeBoltzmannSolver) (i : ℕ) :
    (streaming s).f 2 i =
      if i ≤ s.nx - 2 then s.f 2 (s.nx - 1) else s.f 2 i := by
  have h := streamLeft_apply (s.f 2) s.nx (s.nx - 1) (Nat.le_refl _) i
  have h2 : (streaming s).f 2 i = streamLeft (s.f 2) s.nx (s.nx - 1) i := by
    simp [streaming]
  rw [h2, h, Nat.sub_self]
  simp

/-- The streaming step leaves row 0 untouched. -/
lemma streaming_f0 (s : LatticeBoltzmannSolver) (i : ℕ) :
    (streaming s).f 0 i = s.f 0 i := by
  simp [streaming]

/-! ### Values of the velocity vectors and weights -/

@[simp] lemma lbmC_zero : lbmC 0 = 0 := rfl

@[simp] lemma lbmC_one : lbmC 1 = 1 := rfl

@[simp] lemma lbmC_two : lbmC 2 = -1 := rfl

@[simp] lemma lbmW_zero : lbmW 0 = 1/3 := rfl

@[simp] lemma lbmW_one : lbmW 1 = 1/6 := rfl

@[simp] lemma lbmW_two : lbmW 2 = 1/6 := rfl

/-! ### Concrete states used to exercise the theorems -/

/-- A concrete three-site state whose rows hold pairwise distinct values:
`f[0] = [0,1,2]`, `f[1] = [10,11,12]`, `f[2] = [20,21,22]`. -/
def csA : LatticeBoltzmannSolver :=
  { nx := 3, nt := 0, omega := 1, dx := 1, dt := 1,
    f := fun d i => ((d : ℕ) : ℝ) * 10 + (i : ℝ),
    rho := fun _ => 1, u := fun _ => 0, epsilon := fun _ => 0 }

/-- The same lattice with relaxation rate `omega = 0`. -/
def csB : LatticeBoltzmannSolver := { csA with omega := 0 }

/-- The unfolded `evolve` loop is the `nt`-fold iterate of the loop body. -/
lemma evolveSteps_eq_iterate (n : ℕ) : ∀ s, evolveSteps n s = lbmStep^[n] s := by
  induction n with
  | zero => intro s; rfl
  | succ n ih =>
      intro s
      rw [evolveSteps, ih (lbmStep s), Function.iterate_succ_apply]

/-! ### The claims -/

/-- C1: the spec demands a one-site shift — after streaming, every interior
site should hold the upstream neighbour's pre-call value.  The in-place
ascending loop of the source breaks this: on the state `csA` with
`f[1] = [10,11,12]`, the new `f[1,2]` is the propagated edge value `10`
(the pre-call `f[1,0]`), not the pre-call `f[1,1] = 11` the claim demands. -/
theorem c1_streaming_overwrites_upstream :
    (streaming csA).f 1 2 = csA.f 1 0 ∧
    (streaming csA).f 1 2 = 10 ∧ csA.f 1 1 = 11 ∧
    (streaming csA).f 1 2 ≠ csA.f 1 1 := by
  have h1 : (streaming csA).f 1 2 = csA.f 1 0 := by
    rw [streaming_f1, if_pos]
    norm_num [csA]
  have h0 : csA.f 1 0 = 10 := by norm_num [csA]
  have h11 : csA.f 1 1 = 11 := by norm_num [csA]
  refine ⟨h1, h1.trans h0, h11, ?_⟩
  rw [h1, h0, h11]
  norm_num

/-- C3: after one streaming call, row 1 is constant from index 1 to
`nx - 1` at the pre-call `f[1,0]`, and row 2 is constant from index 0 to
`nx - 2` at the pre-call `f[2,nx-1]`: the in-place loops propagate a single
edge value across each row. -/
theorem c3_streaming_propagates_edge_value (s : LatticeBoltzmannSolver) (i : ℕ) :
    (1 ≤ i → i ≤ s.nx - 1 → (streaming s).f 1 i = s.f 1 0) ∧
    (i ≤ s.nx - 2 → (streaming s).f 2 i = s.f 2 (s.nx - 1)) := by
  constructor
  · intro h1 h2
    rw [streaming_f1, if_pos ⟨h1, h2⟩]
  · intro h
    rw [streaming_f2, if_pos h]

/-- Witness for C3 on the concrete state `csA` (`nx = 3`). -/
theorem c3_witness :
    (streaming csA).f 1 2 = csA.f 1 0 ∧
    (streaming csA).f 2 0 = csA.f 2 (csA.nx - 1) :=
  ⟨(c3_streaming_propagates_edge_value csA 2).1 (by norm_num) (by norm_num [csA]),
   (c3_streaming_propagates_edge_value csA 0).2 (by norm_num [csA])⟩

/-- C4 counterexample: the claim says `f[1, nx-1]` is left unchanged by
streaming, but on `csA` (`nx = 3`, `f[1] = [10,11,12]`) the rightmost
direction-1 value is overwritten: it becomes `10` instead of staying `12`. -/
theorem c4_counterexample :
    (streaming csA).f 1 (csA.nx - 1) = 10 ∧ csA.f 1 (csA.nx - 1) = 12 ∧
    (streaming csA).f 1 (csA.nx - 1) ≠ csA.f 1 (csA.nx - 1) := by
  have h1 : (streaming csA).f 1 (csA.nx - 1) = csA.f 1 0 := by
    rw [streaming_f1, if_pos]
    norm_num [csA]
  have h0 : csA.f 1 0 = 10 := by norm_num [csA]
  have h2 : csA.f 1 (csA.nx - 1) = 12 := by norm_num [csA]
  refine ⟨h1.trans h0, h2, ?_⟩
  rw [h1, h0, h2]
  norm_num

/-- C4 amended: a streaming call leaves unchanged the leftmost site of
direction 1 (`f[1,0]`), the rightmost site of direction 2 (`f[2,nx-1]`),
and the whole rest-direction row `f[0,:]`. -/
theorem c4_streaming_frame (s : LatticeBoltzmannSolver) :
    (streaming s).f 1 0 = s.f 1 0 ∧
    (streaming s).f 2 (s.nx - 1) = s.f 2 (s.nx - 1) ∧
    ∀ i, (streaming s).f 0 i = s.f 0 i := by
  refine ⟨?_, ?_, fun i => streaming_f0 s i⟩
  · rw [streaming_f1, if_neg]
    intro h
    exact absurd h.1 (by norm_num)
  · rw [streaming_f2]
    by_cases h : s.nx - 1 ≤ s.nx - 2
    · rw [if_pos h]
    · rw [if_neg h]

/-- C5 counterexample: the freshly constructed state has `rho` all ones but
`f` all zeros, so the claimed invariant `rho[i] = f[0,i]+f[1,i]+f[2,i]`
fails at construction. -/
theorem c5_counterexample :
    ¬ ((init 1 0 1 1 1).rho 0 =
        (init 1 0 1 1 1).f 0 0 + (init 1 0 1 1 1).f 1 0 + (init 1 0 1 1 1).f 2 0) := by
  norm_num [init]

/-- C5 amended: the relations `rho[i] = f[0,i]+f[1,i]+f[2,i]` and
`u[i] = (f[1,i]-f[2,i])/rho[i]` hold for every state produced by
`update_density_velocity` (hence at the end of each evolve step); they do
not hold of every state, in particular not of the freshly constructed one. -/
theorem c5_macroscopic_invariant_after_update (s : LatticeBoltzmannSolver) (i : ℕ) :
    (update_density_velocity s).rho i =
      (update_density_velocity s).f 0 i + (update_density_velocity s).f 1 i +
        (update_density_velocity s).f 2 i ∧
    (update_density_velocity s).u i =
      ((update_density_velocity s).f 1 i - (update_density_velocity s).f 2 i) /
        (update_density_velocity s).rho i :=
  ⟨rfl, rfl⟩

/-- C6: collision blends each entry of `f` toward the freshly computed
equilibrium at rate `omega`; with `omega = 1` it lands exactly on the
equilibrium, with `omega = 0` it leaves `f` unchanged. -/
theorem c6_collision_bgk_blend (s : LatticeBoltzmannSolver) (d : Fin 3) (i : ℕ) :
    (collision s).f d i =
      (1 - s.omega) * s.f d i + s.omega * equilibrium_distribution s d i ∧
    (s.omega = 1 → (collision s).f d i = equilibrium_distribution s d i) ∧
    (s.omega = 0 → (collision s).f d i = s.f d i) := by
  refine ⟨rfl, fun h => ?_, fun h => ?_⟩ <;>
    simp [collision, h]

/-- Witness for C6: full relaxation on `csA` (`omega = 1`) and no
relaxation on `csB` (`omega = 0`). -/
theorem c6_witness :
    (collision csA).f 0 0 = equilibrium_distribution csA 0 0 ∧
    (collision csB).f 0 0 = csB.f 0 0 :=
  ⟨(c6_collision_bgk_blend csA 0 0).2.1 rfl,
   (c6_collision_bgk_blend csB 0 0).2.2 rfl⟩

/-- C7: the per-site row sum of the equilibrium distribution is
`rho * exp(epsilon) * (13 + 12u + 12u^2) / 6`; for positive density it
strictly exceeds `rho * exp(epsilon)`, so with `epsilon = 0` it never
reproduces the density. -/
theorem c7_equilibrium_row_sum (s : LatticeBoltzmannSolver) (i : ℕ) :
    equilibrium_distribution s 0 i + equilibrium_distribution s 1 i +
        equilibrium_distribution s 2 i =
      s.rho i * Real.exp (s.epsilon i) *
        (13 + 12 * s.u i + 12 * (s.u i) ^ 2) / 6 ∧
    (0 < s.rho i →
      s.rho i * Real.exp (s.epsilon i) <
        equilibrium_distribution s 0 i + equilibrium_distribution s 1 i +
          equilibrium_distribution s 2 i) ∧
    (0 < s.rho i → s.epsilon i = 0 →
      equilibrium_distribution s 0 i + equilibrium_distribution s 1 i +
        equilibrium_distribution s 2 i ≠ s.rho i) := by
  have hsum : equilibrium_distribution s 0 i + equilibrium_distribution s 1 i +
      equilibrium_distribution s 2 i =
      s.rho i * Real.exp (s.epsilon i) *
        (13 + 12 * s.u i + 12 * (s.u i) ^ 2) / 6 := by
    simp only [equilibrium_distribution, lbmC_zero, lbmC_one, lbmC_two,
      lbmW_zero, lbmW_one, lbmW_two]
    ring
  have hlt : 0 < s.rho i →
      s.rho i * Real.exp (s.epsilon i) <
        equilibrium_distribution s 0 i + equilibrium_distribution s 1 i +
          equilibrium_distribution s 2 i := by
    intro hr
    rw [hsum]
    have hexp : 0 < Real.exp (s.epsilon i) := Real.exp_pos _
    have hre : 0 < s.rho i * Real.exp (s.epsilon i) := mul_pos hr hexp
    nlinarith [sq_nonneg (2 * s.u i + 1), mul_pos hre (mul_pos hre hre)]
  refine ⟨hsum, hlt, fun hr h0 => ?_⟩
  have h := hlt hr
  rw [h0, Real.exp_zero, mul_one] at h
  exact (ne_of_lt h).symm

/-- Witness for C7 on `csA` (`rho = 1`, `u = 0`, `epsilon = 0`): the row
sum differs from the density. -/
theorem c7_witness :
    equilibrium_distribution csA 0 0 + equilibrium_distribution csA 1 0 +
      equilibrium_distribution csA 2 0 ≠ csA.rho 0 :=
  (c7_equilibrium_row_sum csA 0).2.2 (by norm_num [csA]) rfl

/-- C8: the equilibrium computation reads only `rho`, `u` and `epsilon`
and mutates nothing, so any two states agreeing on those three fields —
however their `f` differ — produce identical equilibrium matrices. -/
theorem c8_equilibrium_pure (s t : LatticeBoltzmannSolver)
    (h1 : s.rho = t.rho) (h2 : s.u = t.u) (h3 : s.epsilon = t.epsilon) :
    equilibrium_distribution s = equilibrium_distribution t := by
  funext d i
  simp [equilibrium_distribution, h1, h2, h3]

/-- Witness for C8: a collision call between the two computations mutates
`f` but not `rho`, `u`, `epsilon`, and the equilibrium output is identical. -/
theorem c8_witness :
    equilibrium_distribution csA = equilibrium_distribution (collision csA) :=
  c8_equilibrium_pure csA (collision csA) rfl rfl rfl

/-- C9: the macroscopic update divides by the freshly summed density with
no guard: for every state the update succeeds and assigns the quotient,
and at a site whose populations sum to zero it still assigns `rho = 0` and
performs the division by that zero. -/
theorem c9_update_unguarded (s : LatticeBoltzmannSolver) (i : ℕ) :
    (update_density_velocity s).rho i = s.f 0 i + s.f 1 i + s.f 2 i ∧
    (update_density_velocity s).u i =
      (s.f 1 i - s.f 2 i) / (s.f 0 i + s.f 1 i + s.f 2 i) ∧
    (s.f 0 i + s.f 1 i + s.f 2 i = 0 →
      (update_density_velocity s).rho i = 0 ∧
      (update_density_velocity s).u i = (s.f 1 i - s.f 2 i) / 0) := by
  refine ⟨rfl, rfl, fun h => ⟨h, ?_⟩⟩
  show (s.f 1 i - s.f 2 i) / (s.f 0 i + s.f 1 i + s.f 2 i) = (s.f 1 i - s.f 2 i) / 0
  rw [h]

/-- Witness for C9: the freshly constructed state has all populations
zero, and the update still goes through, dividing by zero. -/
theorem c9_witness :
    (update_density_velocity (init 1 0 1 1 1)).rho 0 = 0 ∧
    (update_density_velocity (init 1 0 1 1 1)).u 0 =
      ((init 1 0 1 1 1).f 1 0 - (init 1 0 1 1 1).f 2 0) / 0 :=
  (c9_update_unguarded (init 1 0 1 1 1) 0).2.2 (by norm_num [init])

/-- C10: `evolve` is exactly the `nt`-fold iterate of the fixed loop body
collision → streaming → macroscopic update, with no other control flow;
with `nt = 0` it leaves the state unchanged. -/
theorem c10_evolve_fixed_iteration (s : LatticeBoltzmannSolver) :
    evolve s =
      (fun t => update_density_velocity (streaming (collision t)))^[s.nt] s ∧
    (s.nt = 0 → evolve s = s) := by
  have hbody : lbmStep = fun t => update_density_velocity (streaming (collision t)) := rfl
  have h : evolve s = lbmStep^[s.nt] s := evolveSteps_eq_iterate s.nt s
  refine ⟨hbody ▸ h, fun h0 => ?_⟩
  rw [h, h0]
  rfl

/-- Witness for C10: `csA` has `nt = 0` and evolving it is the identity. -/
theorem c10_witness : evolve csA = csA :=
  (c10_evolve_fixed_iteration csA).2 rfl

/-! ### The end-to-end scenario of C2

On a spatially uniform state with `omega = 1` and `epsilon = 0` the whole
evolution stays uniform, and the density/velocity pair follows a scalar
rational recurrence, which lets the five steps of the scenario be computed
exactly. -/

/-- One evolve step of `(rho, u)` on a uniform lattice with `omega = 1`
and zero binding energy. -/
def qstep (p : ℚ × ℚ) : ℚ × ℚ :=
  (p.1 * (13 + 12 * p.2 + 12 * p.2 ^ 2) / 6,
   6 * (1 + 3 * p.2) / (13 + 12 * p.2 + 12 * p.2 ^ 2))

lemma qden_pos (v : ℚ) : 0 < 13 + 12 * v + 12 * v ^ 2 := by
  nlinarith [sq_nonneg (2 * v + 1)]

lemma qden_pos_real (v : ℝ) : 0 < 13 + 12 * v + 12 * v ^ 2 := by
  nlinarith [sq_nonneg (2 * v + 1)]

/-- One loop-body step preserves spatial uniformity (with `omega = 1`,
`epsilon = 0`) and acts on the uniform density and velocity as `qstep`. -/
lemma lbmStep_uniform (s : LatticeBoltzmannSolver) (r v : ℚ)
    (hw : s.omega = 1) (he : ∀ i, s.epsilon i = 0)
    (hp : ∀ i, s.rho i = (r : ℝ)) (hu : ∀ i, s.u i = (v : ℝ)) (hr : 0 < r) :
    (lbmStep s).omega = 1 ∧ (∀ i, (lbmStep s).epsilon i = 0) ∧
    (∀ i, (lbmStep s).rho i = ((qstep (r, v)).1 : ℝ)) ∧
    (∀ i, (lbmStep s).u i = ((qstep (r, v)).2 : ℝ)) := by
  have hE : ∀ (d : Fin 3) (i : ℕ),
      (collision s).f d i = equilibrium_distribution s d i := by
    intro d i
    simp [collision, hw]
  have hEconst : ∀ (d : Fin 3) (i : ℕ),
      equilibrium_distribution s d i = equilibrium_distribution s d 0 := by
    intro d i
    simp [equilibrium_distribution, hp, hu, he]
  have hs0 : ∀ i, (streaming (collision s)).f 0 i = equilibrium_distribution s 0 0 := by
    intro i
    rw [streaming_f0, hE 0 i, hEconst 0 i]
  have hs1 : ∀ i, (streaming (collision s)).f 1 i = equilibrium_distribution s 1 0 := by
    intro i
    rw [streaming_f1]
    by_cases hc : 1 ≤ i ∧ i ≤ (collision s).nx - 1
    · rw [if_pos hc, hE 1 0, hEconst 1 0]
    · rw [if_neg hc, hE 1 i, hEconst 1 i]
  have hs2 : ∀ i, (streaming (collision s)).f 2 i = equilibrium_distribution s 2 0 := by
    intro i
    rw [streaming_f2]
    by_cases hc : i ≤ (collision s).nx - 2
    · rw [if_pos hc, hE 2 _, hEconst 2 _]
    · rw [if_neg hc, hE 2 i, hEconst 2 i]
  have hE0 : equilibrium_distribution s 0 0 =
      1/3 * (r : ℝ) * (1 + 3 * (v : ℝ) + 9/2 * (v : ℝ) ^ 2 - 3/2 * (v : ℝ) ^ 2) := by
    simp [equilibrium_distribution, hp, hu, he, Real.exp_zero]
  have hE1 : equilibrium_distribution s 1 0 =
      1/6 * (r : ℝ) *
        (1 + 3 * ((v : ℝ) + 1) + 9/2 * ((v : ℝ) + 1) ^ 2 - 3/2 * (v : ℝ) ^ 2) := by
    simp [equilibrium_distribution, hp, hu, he, Real.exp_zero]
  have hE2 : equilibrium_distribution s 2 0 =
      1/6 * (r : ℝ) *
        (1 + 3 * ((v : ℝ) + -1) + 9/2 * ((v : ℝ) + -1) ^ 2 - 3/2 * (v : ℝ) ^ 2) := by
    simp [equilibrium_distribution, hp, hu, he, Real.exp_zero]
  have hrR : (0 : ℝ) < (r : ℝ) := by exact_mod_cast hr
  have hQ : (0 : ℝ) < 13 + 12 * (v : ℝ) + 12 * (v : ℝ) ^ 2 := qden_pos_real _
  have hsum : ∀ i, (lbmStep s).rho i =
      (r : ℝ) * (13 + 12 * (v : ℝ) + 12 * (v : ℝ) ^ 2) / 6 := by
    intro i
    show (streaming (collision s)).f 0 i + (streaming (collision s)).f 1 i +
        (streaming (collision s)).f 2 i = _
    rw [hs0 i, hs1 i, hs2 i, hE0, hE1, hE2]
    ring
  refine ⟨hw, he, fun i => ?_, fun i => ?_⟩
  · rw [hsum i]
    simp only [qstep]
    push_cast
    ring
  · show ((streaming (collision s)).f 1 i - (streaming (collision s)).f 2 i) /
        ((streaming (collision s)).f 0 i + (streaming (collision s)).f 1 i +
          (streaming (collision s)).f 2 i) = _
    have hden : (streaming (collision s)).f 0 i + (streaming (collision s)).f 1 i +
        (streaming (collision s)).f 2 i =
        (r : ℝ) * (13 + 12 * (v : ℝ) + 12 * (v : ℝ) ^ 2) / 6 := hsum i
    rw [hden, hs1 i, hs2 i, hE1, hE2]
    simp only [qstep]
    push_cast
    rw [div_eq_div_iff (by positivity) (ne_of_gt hQ)]
    ring

/-- The full evolve loop on a uniform lattice follows the iterated
rational recurrence. -/
lemma evolveSteps_uniform : ∀ (k : ℕ) (s : LatticeBoltzmannSolver) (r v : ℚ),
    s.omega = 1 → (∀ i, s.epsilon i = 0) → (∀ i, s.rho i = (r : ℝ)) →
    (∀ i, s.u i = (v : ℝ)) → 0 < r →
    (∀ i, (evolveSteps k s).rho i = ((qstep^[k] (r, v)).1 : ℝ)) ∧
    (∀ i, (evolveSteps k s).u i = ((qstep^[k] (r, v)).2 : ℝ)) := by
  intro k
  induction k with
  | zero =>
      intro s r v hw he hp hu hr
      exact ⟨fun i => by simpa using hp i, fun i => by simpa using hu i⟩
  | succ k ih =>
      intro s r v hw he hp hu hr
      obtain ⟨hw', he', hp', hu'⟩ := lbmStep_uniform s r v hw he hp hu hr
      have hr' : 0 < (qstep (r, v)).1 := by
        simp only [qstep]
        exact div_pos (mul_pos hr (qden_pos v)) (by norm_num)
      have h := ih (lbmStep s) (qstep (r, v)).1 (qstep (r, v)).2 hw' he' hp' hu' hr'
      have hpair : ((qstep (r, v)).1, (qstep (r, v)).2) = qstep (r, v) := rfl
      rw [hpair] at h
      have hstep : evolveSteps (k + 1) s = evolveSteps k (lbmStep s) := rfl
      rw [hstep]
      constructor <;> intro i
      · rw [h.1 i, ← Function.iterate_succ_apply]
      · rw [h.2 i, ← Function.iterate_succ_apply]

/-- The exact value of the scenario recurrence after the five steps. -/
lemma qstep_five :
    qstep^[5] ((1 : ℚ), (0 : ℚ)) =
      (474001390103782485329449/702423306884540989152,
       202900611241595343199105338/297168290860226212979930365) := by
  have h1 : qstep ((1 : ℚ), (0 : ℚ)) = (13/6, 6/13) := by
    norm_num [qstep]
  have h2 : qstep ((13/6 : ℚ), (6/13 : ℚ)) = (3565/468, 78/115) := by
    norm_num [qstep]
  have h3 : qstep ((3565/468 : ℚ), (78/115 : ℚ)) = (840751/24840, 240810/352573) := by
    norm_num [qstep]
  have h4 : qstep ((840751/24840 : ℚ), (240810/352573 : ℚ)) =
      (103252043698147/683117238960, 2274102196314/3330711087037) := by
    norm_num [qstep]
  have h5 : qstep ((103252043698147/683117238960 : ℚ), (2274102196314/3330711087037 : ℚ)) =
      (474001390103782485329449/702423306884540989152,
       202900611241595343199105338/297168290860226212979930365) := by
    norm_num [qstep]
  show qstep (qstep (qstep (qstep (qstep ((1 : ℚ), (0 : ℚ)))))) = _
  rw [h1, h2, h3, h4, h5]

/-- C2: on the spec's own scenario (`nx = 10`, `nt = 5`, `omega = 1`,
initial `rho = 1`, `u = 0`, `epsilon = 0`) the evolved state is nowhere
near the claimed values: the density at the interior site 5 exceeds 100
(it is exactly 474001390103782485329449/702423306884540989152 ≈ 674.8) and
the velocity there exceeds 1/2 (≈ 0.6828), instead of staying close to
1 and 0. -/
theorem c2_scenario_diverges :
    100 < (evolve (init 10 5 1 1 1)).rho 5 ∧
    (1 : ℝ)/2 < (evolve (init 10 5 1 1 1)).u 5 := by
  have h := evolveSteps_uniform 5 (init 10 5 1 1 1) 1 0 rfl (fun _ => rfl)
    (fun i => by norm_num [init]) (fun i => by norm_num [init]) (by norm_num)
  have he : evolve (init 10 5 1 1 1) = evolveSteps 5 (init 10 5 1 1 1) := rfl
  rw [he, h.1 5, h.2 5, qstep_five]
  constructor
  · show (100 : ℝ) <
      ((474001390103782485329449/702423306884540989152 : ℚ) : ℝ)
    have hq : (100 : ℚ) < 474001390103782485329449/702423306884540989152 := by
      norm_num
    exact_mod_cast hq
  · show (1 : ℝ)/2 <
      ((202900611241595343199105338/297168290860226212979930365 : ℚ) : ℝ)
    push_cast
    norm_num

end
